import Mathlib

/-!
Shallow embedding of `src/debounce.ts` (smart-debounce).

The source is a single factory `debounce(fn, delay, options)` whose closure
holds: `delayTimer`, `maxWaitTimer`, `lastArgs`/`lastThis`, `hasPending`,
the shared promise cell (`pendingPromise`/`resolvePending`/`rejectPending`),
and `removeKeyListener`.  We embed that closure state as a record `DState`,
with timers as absolute fire times (a fired or cleared timer is `none`; the
source's stale non-null handles after firing are observationally equivalent
because they are only ever passed to `clearTimeout`, a no-op on dead timers).
`flush`'s untracked `setTimeout(tryRun, 0)` (line 260) is a separate slot
`flushTimer` because no closure variable retains it.

Modelling choices, each matching the source:
* `lastThis`/`lastArgs` are folded into one captured-invocation value `α`;
  `fn.apply(currentThis, currentArgs)` with a null record is `fn none`.
* the wrapped operation is `fn : Option α → FnResult β`: it returns a plain
  value, throws synchronously, or returns a promise that later settles;
  `declaredAsync` models line 72's `fn.constructor.name === "AsyncFunction"`,
  deliberately distinct from whether `fn`'s result `isPromise`.
* a `condition` is evaluated synchronously at the current time
  (`Nat → CondOutcome`); its asynchronous variant only adds interleaving
  points that none of the verified claims depend on.
* promise identity: the cell stores a fresh id per burst; settlements are
  appended to `settleLog`.  An operation-returned promise is settled at the
  end of the run step (no other event interleaves before settlement).
* time is driven by an event list; before an action event at time `t` all
  timers strictly earlier than `t` fire (synchronous code at an instant runs
  before timers due at that instant), and `waitE t` lets timers fire through
  `t` inclusive.  Ties at one instant fire in the source's insertion order:
  flush tick, then max-wait, then delay.
-/

namespace SmartDebounce

/-- `DebounceCancelledError` versus any other thrown/rejected error. -/
inductive DbError where
  | cancelled
  | err (code : Nat)
deriving DecidableEq, Repr

/-- Settled outcome of a promise: resolved or rejected. -/
inductive Settled (β : Type) where
  | ok (v : β)
  | error (e : DbError)
deriving DecidableEq, Repr

/-- Result of a synchronous `condition()` evaluation: literal `true`,
falsy, or a throw. -/
inductive CondOutcome where
  | yes
  | no
  | throws (e : DbError)
deriving DecidableEq, Repr

/-- Result of invoking the wrapped operation `fn`. -/
inductive FnResult (β : Type) where
  | ret (v : β)
  | thrown (e : DbError)
  | promise (out : Settled β)
deriving DecidableEq, Repr

/-- What `flush()` returns to its caller. -/
inductive FlushResult (β : Type) where
  | undef
  | value (r : FnResult β)
  | threw (e : DbError)
  | promiseOf (id : Nat)
deriving DecidableEq, Repr

/-- Construction-time configuration of one debounced invoker
(lines 46-72 of the source).  `delay : Nat` encodes the validated
non-negative finite delay; `maxWait : Option Int` is finite by type, so the
source's `Number.isFinite` check reduces to positivity. -/
structure DebounceConfig (α β : Type) where
  delay : Nat
  cancelOn : Option String
  maxWait : Option Int
  condition : Option (Nat → CondOutcome)
  declaredAsync : Bool
  fn : Option α → FnResult β
  isBrowser : Bool

/-- The closure state of one debounced invoker, plus observation logs.
`execLog` records each actual invocation of `fn` as (time, captured args);
`settleLog` records each settlement of an outstanding result promise as
(promise id, outcome); `callLog` records each wrapper call's returned
promise id (or `none` for the sync-declared `undefined` return);
`flushLog` records each `flush()`'s return. -/
structure DState (α β : Type) where
  now : Nat
  delayTimer : Option Nat
  maxWaitTimer : Option Nat
  flushTimer : Option Nat
  lastArgs : Option α
  hasPending : Bool
  pendingPromise : Option Nat
  nextPromiseId : Nat
  keyListenerAttached : Bool
  execLog : List (Nat × Option α)
  settleLog : List (Nat × Settled β)
  callLog : List (Nat × Option Nat)
  flushLog : List (Nat × FlushResult β)

variable {α β : Type}

/-- The fresh state of a newly constructed invoker. -/
def initState : DState α β :=
  { now := 0, delayTimer := none, maxWaitTimer := none, flushTimer := none,
    lastArgs := none, hasPending := false, pendingPromise := none,
    nextPromiseId := 0, keyListenerAttached := false,
    execLog := [], settleLog := [], callLog := [], flushLog := [] }

/-- Line 97's guard `!isBrowser || !cancelKey`: the key listener can be
attached only in a browser host with a non-empty configured key. -/
def cancelKeyActive (cfg : DebounceConfig α β) : Bool :=
  cfg.isBrowser && (match cfg.cancelOn with
    | some k => !(k == "")
    | none => false)

/-- `attachKeyListener` (lines 96-105): attach unless not a browser, no
cancel key, or already attached. -/
def attachKeyListener (cfg : DebounceConfig α β) (s : DState α β) : DState α β :=
  if cancelKeyActive cfg && !s.keyListenerAttached then
    { s with keyListenerAttached := true }
  else s

/-- `clearTimers` (lines 107-116). -/
def clearTimers (s : DState α β) : DState α β :=
  { s with delayTimer := none, maxWaitTimer := none }

/-- `ensurePendingPromise` (lines 118-126): lazily create the shared
outstanding result promise, returning its id. -/
def ensurePendingPromise (s : DState α β) : DState α β × Nat :=
  match s.pendingPromise with
  | some id => (s, id)
  | none =>
      ({ s with pendingPromise := some s.nextPromiseId,
                nextPromiseId := s.nextPromiseId + 1 }, s.nextPromiseId)

/-- Capture `resolvePending`, null the cell, call it if present
(lines 176-181 and the analogous `.then` body). -/
def settleResolve (s : DState α β) (v : β) : DState α β :=
  match s.pendingPromise with
  | some id =>
      { s with pendingPromise := none,
               settleLog := s.settleLog ++ [(id, Settled.ok v)] }
  | none => s

/-- Capture `rejectPending`, null the cell, call it if present
(lines 152-156, 169-174, 184-188). -/
def settleReject (s : DState α β) (e : DbError) : DState α β :=
  match s.pendingPromise with
  | some id =>
      { s with pendingPromise := none,
               settleLog := s.settleLog ++ [(id, Settled.error e)] }
  | none => s

/-- The body of `tryRun` after the condition gate (lines 139-182): capture
the invocation record, clear timers and the key listener, drop pending,
invoke `fn`, and settle the outstanding promise with the outcome. -/
def runCore (cfg : DebounceConfig α β) (s : DState α β) : DState α β :=
  let currentArgs := s.lastArgs
  let s1 : DState α β :=
    { s with delayTimer := none, maxWaitTimer := none,
             keyListenerAttached := false, hasPending := false,
             lastArgs := none,
             execLog := s.execLog ++ [(s.now, currentArgs)] }
  match cfg.fn currentArgs with
  | FnResult.thrown e => settleReject s1 e
  | FnResult.ret v => settleResolve s1 v
  | FnResult.promise (Settled.ok v) => settleResolve s1 v
  | FnResult.promise (Settled.error e) => settleReject s1 e

/-- `tryRun` (lines 128-190).  A falsy condition re-arms the delay timer
after `Math.max(10, delay)` (line 134); a condition throw lands in the outer
catch (lines 183-189), which rejects the outstanding promise if present. -/
def tryRun (cfg : DebounceConfig α β) (s : DState α β) : DState α β :=
  match cfg.condition with
  | some cond =>
      match cond s.now with
      | CondOutcome.no => { s with delayTimer := some (s.now + max 10 cfg.delay) }
      | CondOutcome.throws e => settleReject s e
      | CondOutcome.yes => runCore cfg s
  | none => runCore cfg s

/-- Line 195's guard: `maxWait != null && Number.isFinite(maxWait) && maxWait > 0`. -/
def maxWaitActive (cfg : DebounceConfig α β) : Bool :=
  match cfg.maxWait with
  | some w => decide (0 < w)
  | none => false

/-- The max-wait duration as a natural number (meaningful when active). -/
def maxWaitNat (cfg : DebounceConfig α β) : Nat :=
  (cfg.maxWait.getD 0).toNat

/-- `schedule` (lines 192-214): on the pending transition arm the max-wait
timer once; always re-arm the delay timer and (re-)attach the listener. -/
def schedule (cfg : DebounceConfig α β) (s : DState α β) : DState α β :=
  let s1 : DState α β :=
    if s.hasPending then s
    else
      let s' : DState α β := { s with hasPending := true }
      if maxWaitActive cfg then
        { s' with maxWaitTimer := some (s.now + maxWaitNat cfg) }
      else s'
  let s2 : DState α β := { s1 with delayTimer := some (s1.now + cfg.delay) }
  attachKeyListener cfg s2

/-- The callback of the max-wait timer (lines 196-204): if still pending,
replace the delay timer with an immediate (`setTimeout(tryRun, 0)`) one. -/
def maxWaitHandler (s : DState α β) : DState α β :=
  if s.hasPending then { s with delayTimer := some s.now } else s

/-- The wrapper call itself (lines 264-273): overwrite the invocation
record, `schedule()`, and return the shared promise only for an
async-declared operation. -/
def callOp (cfg : DebounceConfig α β) (s : DState α β) (args : α) :
    DState α β × Option Nat :=
  let s1 : DState α β := { s with lastArgs := some args }
  let s2 := schedule cfg s1
  if cfg.declaredAsync then
    let s3 := ensurePendingPromise s2
    (s3.1, some s3.2)
  else (s2, none)

/-- `cancel` (lines 216-228). -/
def cancelOp (s : DState α β) : DState α β :=
  if s.hasPending then
    let s1 : DState α β :=
      { s with delayTimer := none, maxWaitTimer := none,
               keyListenerAttached := false, hasPending := false,
               lastArgs := none }
    settleReject s1 DbError.cancelled
  else s

/-- A `keydown` event reaching the window (lines 98-103): the handler
exists only while the listener is attached and cancels on a key match. -/
def keydownOp (cfg : DebounceConfig α β) (s : DState α β) (k : String) :
    DState α β :=
  if s.keyListenerAttached &&
      (match cfg.cancelOn with | some ck => ck == k | none => false) then
    cancelOp s
  else s

/-- Outcome of line 233's `canRunSyncNow` check, which may itself throw
out of `flush` when the condition throws. -/
inductive FCheck where
  | syncOK
  | deferred
  | threwE (e : DbError)

/-- Line 233: `!isDeclaredAsyncFunction && (!condition || condition() === true)`;
short-circuit means an async-declared wrapper never evaluates the condition. -/
def flushCondCheck (cfg : DebounceConfig α β) (s : DState α β) : FCheck :=
  if cfg.declaredAsync then FCheck.deferred
  else
    match cfg.condition with
    | none => FCheck.syncOK
    | some cond =>
        match cond s.now with
        | CondOutcome.yes => FCheck.syncOK
        | CondOutcome.no => FCheck.deferred
        | CondOutcome.throws e => FCheck.threwE e

/-- `flush` (lines 230-262).  The deferred path clears the two tracked
timers and schedules an untracked immediate `tryRun` (`flushTimer`). -/
def flushOp (cfg : DebounceConfig α β) (s : DState α β) :
    DState α β × FlushResult β :=
  if !s.hasPending || s.lastArgs.isNone then (s, FlushResult.undef)
  else
    match flushCondCheck cfg s with
    | FCheck.threwE e => (s, FlushResult.threw e)
    | FCheck.syncOK =>
        let currentArgs := s.lastArgs
        let s1 : DState α β :=
          { s with delayTimer := none, maxWaitTimer := none,
                   keyListenerAttached := false, hasPending := false,
                   lastArgs := none,
                   execLog := s.execLog ++ [(s.now, currentArgs)] }
        match cfg.fn currentArgs with
        | FnResult.thrown e => (s1, FlushResult.threw e)
        | r => (s1, FlushResult.value r)
    | FCheck.deferred =>
        let s1 : DState α β := { s with delayTimer := none, maxWaitTimer := none }
        if cfg.declaredAsync then
          let s2 := ensurePendingPromise s1
          ({ s2.1 with flushTimer := some s2.1.now }, FlushResult.promiseOf s2.2)
        else
          ({ s1 with flushTimer := some s1.now }, FlushResult.undef)

/-- The three timer slots, listed in same-instant firing priority. -/
inductive TimerSlot where
  | flushT
  | maxWaitT
  | delayT
deriving DecidableEq, Repr

/-- Is a timer with fire time `f` due by `t`?  In strict mode (an action
event at `t`) only timers strictly before `t` are due. -/
def dueAt (strict : Bool) (t : Nat) : Option Nat → Option Nat
  | some f =>
      if strict then (if f < t then some f else none)
      else (if f ≤ t then some f else none)
  | none => none

/-- Fold step keeping the earliest due timer; on a tie the earlier slot in
the priority order wins. -/
def better (t : Nat) (strict : Bool) (acc : Option (TimerSlot × Nat))
    (sl : TimerSlot) (fo : Option Nat) : Option (TimerSlot × Nat) :=
  match dueAt strict t fo with
  | none => acc
  | some f =>
      match acc with
      | none => some (sl, f)
      | some (bsl, bf) => if f < bf then some (sl, f) else some (bsl, bf)

/-- The earliest timer due by `t`, with flush/max-wait/delay priority. -/
def earliestDue (strict : Bool) (s : DState α β) (t : Nat) :
    Option (TimerSlot × Nat) :=
  better t strict
    (better t strict
      (better t strict none TimerSlot.flushT s.flushTimer)
      TimerSlot.maxWaitT s.maxWaitTimer)
    TimerSlot.delayT s.delayTimer

/-- Fire one timer slot: the slot is consumed and its callback runs. -/
def fireSlot (cfg : DebounceConfig α β) : TimerSlot → DState α β → DState α β
  | TimerSlot.flushT, s => tryRun cfg { s with flushTimer := none }
  | TimerSlot.delayT, s => tryRun cfg { s with delayTimer := none }
  | TimerSlot.maxWaitT, s => maxWaitHandler { s with maxWaitTimer := none }

/-- Fire every due timer in time order up to `t`, then set the clock to
`t`.  Fuel bounds the number of firings; `advanceTo` supplies enough. -/
def runDue (cfg : DebounceConfig α β) (strict : Bool) :
    Nat → Nat → DState α β → DState α β
  | 0, t, s => { s with now := t }
  | Nat.succ fuel, t, s =>
      match earliestDue strict s t with
      | none => { s with now := t }
      | some (sl, f) => runDue cfg strict fuel t (fireSlot cfg sl { s with now := f })

/-- Advance the clock to `max s.now t`, firing due timers on the way.
Retries are at least 10 ms apart and each instant chains at most three
firings, so `(t - now) + 4` fuel always suffices. -/
def advanceTo (cfg : DebounceConfig α β) (strict : Bool) (t : Nat)
    (s : DState α β) : DState α β :=
  runDue cfg strict (max s.now t - s.now + 4) (max s.now t) s

/-- External events driving one invoker: wrapper calls, `cancel()`,
`flush()`, a window `keydown`, and plain passage of time. -/
inductive DEvent (α : Type) where
  | call (t : Nat) (args : α)
  | cancelE (t : Nat)
  | flushE (t : Nat)
  | keyE (t : Nat) (k : String)
  | waitE (t : Nat)

/-- Process one event: fire timers strictly before the event's instant
(synchronous code at an instant precedes timers due at it), then act.
`waitE t` instead lets timers fire through `t` inclusive. -/
def processEvent (cfg : DebounceConfig α β) (s : DState α β) :
    DEvent α → DState α β
  | DEvent.call t a =>
      let s1 := advanceTo cfg true t s
      let p := callOp cfg s1 a
      { p.1 with callLog := p.1.callLog ++ [(s1.now, p.2)] }
  | DEvent.cancelE t => cancelOp (advanceTo cfg true t s)
  | DEvent.flushE t =>
      let s1 := advanceTo cfg true t s
      let p := flushOp cfg s1
      { p.1 with flushLog := p.1.flushLog ++ [(s1.now, p.2)] }
  | DEvent.keyE t k => keydownOp cfg (advanceTo cfg true t s) k
  | DEvent.waitE t => advanceTo cfg false t s

/-- Run a list of events from a given state. -/
def runFrom (cfg : DebounceConfig α β) (s : DState α β)
    (es : List (DEvent α)) : DState α β :=
  es.foldl (processEvent cfg) s

/-- Run a list of events on a freshly constructed invoker. -/
def runEvents (cfg : DebounceConfig α β) (es : List (DEvent α)) : DState α β :=
  runFrom cfg initState es

/-- The one settlement outcome an `fn` invocation produces for the
outstanding promise: return value, thrown error, or the returned promise's
own eventual outcome. -/
def fnOutcome (r : FnResult β) : Settled β :=
  match r with
  | FnResult.ret v => Settled.ok v
  | FnResult.thrown e => Settled.error e
  | FnResult.promise out => out

/-- The call events of a burst, as (time, captured args) pairs. -/
def burstEvents : List (Nat × α) → List (DEvent α)
  | [] => []
  | (t, a) :: r => DEvent.call t a :: burstEvents r

/-- Times are non-decreasing and each gap is strictly below `delay`;
`tp` is the previous call's time. -/
def burstTimes (delay : Nat) : Nat → List (Nat × α) → Prop
  | _, [] => True
  | tp, (t, _) :: r => tp ≤ t ∧ t < tp + delay ∧ burstTimes delay t r

/-- The last call of `c :: l`. -/
def lastCall (c : Nat × α) : List (Nat × α) → Nat × α
  | [] => c
  | c' :: r => lastCall c' r

/-- State shape maintained through a burst of calls that began at `t1`,
whose most recent call was at `tk` with captured args `ak`.  The max-wait
timer is exactly the one armed at the pending transition and the execution
log is still empty. -/
structure BurstInv (cfg : DebounceConfig α β) (t1 tk : Nat) (ak : α)
    (s : DState α β) : Prop where
  hnow : s.now = tk
  hdt : s.delayTimer = some (tk + cfg.delay)
  hmw : s.maxWaitTimer =
    if maxWaitActive cfg then some (t1 + maxWaitNat cfg) else none
  hft : s.flushTimer = none
  hp : s.hasPending = true
  hla : s.lastArgs = some ak
  hkl : s.keyListenerAttached = cancelKeyActive cfg
  hpp : s.pendingPromise = if cfg.declaredAsync then some 0 else none
  hel : s.execLog = []
  hsl : s.settleLog = []

/-! ### Concrete instances used by closed theorems -/

/-- The cancellation key name used in concrete instances. -/
def escKey : String := "Escape"

/-- Plain synchronous configuration: `delay = 100`, no options. -/
def cfgSyncBasic : DebounceConfig Nat Nat :=
  { delay := 100, cancelOn := none, maxWait := none, condition := none,
    declaredAsync := false, fn := fun _ => FnResult.ret 0,
    isBrowser := false }

/-- Async-declared operation whose promise resolves to 42, `delay = 100`. -/
def cfgAsyncP : DebounceConfig Nat Nat :=
  { cfgSyncBasic with
    declaredAsync := true,
    fn := fun _ => FnResult.promise (Settled.ok 42) }

/-- `delay = 1000`, `maxWait = 500` (a spec scenario). -/
def cfgMaxW : DebounceConfig Nat Nat :=
  { cfgSyncBasic with delay := 1000, maxWait := some 500 }

/-- Condition permanently falsy, `delay = 100`. -/
def cfgCondFalse : DebounceConfig Nat Nat :=
  { cfgSyncBasic with condition := some (fun _ => CondOutcome.no) }

/-- Condition permanently falsy, `delay = 5`. -/
def cfgCondFalse5 : DebounceConfig Nat Nat :=
  { cfgCondFalse with delay := 5 }

/-- Condition that throws, sync-declared operation, `delay = 50`. -/
def cfgCondThrow : DebounceConfig Nat Nat :=
  { cfgSyncBasic with
    delay := 50,
    condition := some (fun _ => CondOutcome.throws (DbError.err 3)) }

/-- Condition that throws, async-declared operation. -/
def cfgCondThrowAsync : DebounceConfig Nat Nat :=
  { cfgAsyncP with
    condition := some (fun _ => CondOutcome.throws (DbError.err 7)) }

/-- `cancelOn` configured, but a non-browser host. -/
def cfgKeyNode : DebounceConfig Nat Nat :=
  { cfgSyncBasic with cancelOn := some escKey, isBrowser := false }

/-- `cancelOn` configured in a browser host. -/
def cfgKeyBrow : DebounceConfig Nat Nat :=
  { cfgSyncBasic with cancelOn := some escKey, isBrowser := true }

/-- Sync-declared operation that returns a promise anyway. -/
def cfgPromiseSync : DebounceConfig Nat Nat :=
  { cfgSyncBasic with fn := fun _ => FnResult.promise (Settled.ok 7) }

/-- A pending mid-burst state: one call with args 5 captured at time 10,
delay timer armed for 110. -/
def sPend : DState Nat Nat :=
  { now := 10, delayTimer := some 110, maxWaitTimer := none,
    flushTimer := none, lastArgs := some 5, hasPending := true,
    pendingPromise := none, nextPromiseId := 0,
    keyListenerAttached := false,
    execLog := [], settleLog := [], callLog := [(10, none)],
    flushLog := [] }

/-- A pending state with an outstanding promise (id 0). -/
def sPendP : DState Nat Nat :=
  { sPend with
    pendingPromise := some 0,
    nextPromiseId := 1,
    callLog := [(10, some 0)] }

attribute [ext] DState

/-! ### Helper equations for symbolic reasoning -/

theorem update_now_self (s : DState α β) (t : Nat) (h : s.now = t) :
    ({ s with now := t } : DState α β) = s := by
  ext <;> simp [h]

theorem settleResolve_eq (s : DState α β) (v : β) :
    settleResolve s v =
      { s with pendingPromise := none,
               settleLog := s.settleLog ++
                 (match s.pendingPromise with
                  | some id => [(id, Settled.ok v)]
                  | none => []) } := by
  cases h : s.pendingPromise <;> ext <;> simp [settleResolve, h]

theorem settleReject_eq (s : DState α β) (e : DbError) :
    settleReject s e =
      { s with pendingPromise := none,
               settleLog := s.settleLog ++
                 (match s.pendingPromise with
                  | some id => [(id, Settled.error e)]
                  | none => []) } := by
  cases h : s.pendingPromise <;> ext <;> simp [settleReject, h]

theorem runCore_eq (cfg : DebounceConfig α β) (s : DState α β) :
    runCore cfg s =
      { s with delayTimer := none, maxWaitTimer := none,
               keyListenerAttached := false, hasPending := false,
               lastArgs := none, pendingPromise := none,
               execLog := s.execLog ++ [(s.now, s.lastArgs)],
               settleLog := s.settleLog ++
                 (match s.pendingPromise with
                  | some id => [(id, fnOutcome (cfg.fn s.lastArgs))]
                  | none => []) } := by
  unfold runCore
  cases hf : cfg.fn s.lastArgs with
  | ret v => simp [hf, settleResolve_eq, fnOutcome]
  | thrown e => simp [hf, settleReject_eq, fnOutcome]
  | promise out =>
      cases out with
      | ok v => simp [hf, settleResolve_eq, fnOutcome]
      | error e => simp [hf, settleReject_eq, fnOutcome]

theorem attachKeyListener_eq (cfg : DebounceConfig α β) (s : DState α β) :
    attachKeyListener cfg s =
      { s with keyListenerAttached :=
          s.keyListenerAttached || cancelKeyActive cfg } := by
  unfold attachKeyListener
  cases hA : cancelKeyActive cfg <;> cases hK : s.keyListenerAttached <;>
    ext <;> simp [hA, hK]

theorem dueAt_none_bot (strict : Bool) (t : Nat) :
    dueAt strict t none = none := rfl

theorem dueAt_none_of_ge {t f : Nat} (h : t ≤ f) :
    dueAt true t (some f) = none := by
  simp [dueAt]; omega

theorem dueAt_none_of_gt {t f : Nat} (h : t < f) :
    dueAt false t (some f) = none := by
  simp [dueAt]; omega

theorem earliestDue_none (strict : Bool) (s : DState α β) (t : Nat)
    (h1 : dueAt strict t s.flushTimer = none)
    (h2 : dueAt strict t s.maxWaitTimer = none)
    (h3 : dueAt strict t s.delayTimer = none) :
    earliestDue strict s t = none := by
  simp [earliestDue, better, h1, h2, h3]

theorem runDue_noop (cfg : DebounceConfig α β) (strict : Bool)
    (fuel t : Nat) (s : DState α β)
    (h : earliestDue strict s t = none) :
    runDue cfg strict fuel t s = { s with now := t } := by
  cases fuel with
  | zero => rfl
  | succ n => simp [runDue, h]

theorem advanceTo_noop (cfg : DebounceConfig α β) (strict : Bool)
    (t : Nat) (s : DState α β)
    (h : earliestDue strict s (max s.now t) = none) :
    advanceTo cfg strict t s = { s with now := max s.now t } := by
  unfold advanceTo
  exact runDue_noop _ _ _ _ _ h

theorem runDue_step (cfg : DebounceConfig α β) (strict : Bool)
    (fuel t : Nat) (s : DState α β) (sl : TimerSlot) (f : Nat)
    (h : earliestDue strict s t = some (sl, f)) :
    runDue cfg strict (fuel + 1) t s =
      runDue cfg strict fuel t (fireSlot cfg sl { s with now := f }) := by
  simp [runDue, h]

/-- Effect of the first wrapper call on a fresh invoker. -/
theorem call_first (cfg : DebounceConfig α β) (t : Nat) (a : α) :
    processEvent cfg (initState : DState α β) (DEvent.call t a) =
      { now := t,
        delayTimer := some (t + cfg.delay),
        maxWaitTimer := if maxWaitActive cfg then some (t + maxWaitNat cfg)
                        else none,
        flushTimer := none, lastArgs := some a, hasPending := true,
        pendingPromise := if cfg.declaredAsync then some 0 else none,
        nextPromiseId := if cfg.declaredAsync then 1 else 0,
        keyListenerAttached := cancelKeyActive cfg,
        execLog := [], settleLog := [],
        callLog := [(t, if cfg.declaredAsync then some 0 else none)],
        flushLog := [] } := by
  have hadv : advanceTo cfg true t (initState : DState α β) =
      { (initState : DState α β) with now := t } := by
    have h := advanceTo_noop cfg true t (initState : DState α β)
      (earliestDue_none _ _ _ rfl rfl rfl)
    simpa [initState] using h
  simp only [processEvent]
  rw [hadv]
  cases hD : cfg.declaredAsync <;> cases hM : maxWaitActive cfg <;>
    ext <;>
      simp [callOp, schedule, hD, hM, attachKeyListener_eq,
            ensurePendingPromise, initState, cancelKeyActive]

/-- Effect of a wrapper call that lands while a burst is already pending
and no timer is due strictly before it. -/
theorem call_step_pending (cfg : DebounceConfig α β) (s : DState α β)
    (t' : Nat) (a' : α) (pid : Nat)
    (hnow : s.now ≤ t')
    (hft : s.flushTimer = none)
    (hdt : ∀ f, s.delayTimer = some f → t' ≤ f)
    (hmw : ∀ f, s.maxWaitTimer = some f → t' ≤ f)
    (hp : s.hasPending = true)
    (hpp : s.pendingPromise = if cfg.declaredAsync then some pid else none) :
    processEvent cfg s (DEvent.call t' a') =
      { s with now := t',
               lastArgs := some a',
               delayTimer := some (t' + cfg.delay),
               keyListenerAttached :=
                 s.keyListenerAttached || cancelKeyActive cfg,
               callLog := s.callLog ++
                 [(t', if cfg.declaredAsync then some pid else none)] } := by
  have hmax : max s.now t' = t' := Nat.max_eq_right hnow
  have hadv : advanceTo cfg true t' s = { s with now := t' } := by
    have hdue : earliestDue true s (max s.now t') = none := by
      rw [hmax]
      refine earliestDue_none _ _ _ ?_ ?_ ?_
      · rw [hft]; rfl
      · cases hm : s.maxWaitTimer with
        | none => rfl
        | some f => exact dueAt_none_of_ge (hmw f hm)
      · cases hd : s.delayTimer with
        | none => rfl
        | some f => exact dueAt_none_of_ge (hdt f hd)
    rw [advanceTo_noop cfg true t' s hdue, hmax]
  simp only [processEvent]
  rw [hadv]
  cases hD : cfg.declaredAsync <;>
    ext <;>
      simp [callOp, schedule, hp, hD, hpp, attachKeyListener_eq,
            ensurePendingPromise]

/-- With no condition configured `tryRun` goes straight to the run body. -/
theorem tryRun_cond_none (cfg : DebounceConfig α β)
    (hc : cfg.condition = none) (x : DState α β) :
    tryRun cfg x = runCore cfg x := by
  simp [tryRun, hc]

/-- After `runCore` no timer remains, so the remaining advance is a no-op. -/
theorem runDue_runCore_fix (cfg : DebounceConfig α β) (fuel T : Nat)
    (x : DState α β) (hf : x.flushTimer = none) (hn : x.now = T) :
    runDue cfg false fuel T (runCore cfg x) = runCore cfg x := by
  have h1 : dueAt false T (runCore cfg x).flushTimer = none := by
    rw [runCore_eq]
    show dueAt false T x.flushTimer = none
    rw [hf]
    rfl
  have h2 : dueAt false T (runCore cfg x).maxWaitTimer = none := by
    rw [runCore_eq]
    rfl
  have h3 : dueAt false T (runCore cfg x).delayTimer = none := by
    rw [runCore_eq]
    rfl
  rw [runDue_noop _ _ _ _ _ (earliestDue_none _ _ _ h1 h2 h3)]
  refine update_now_self _ _ ?_
  rw [runCore_eq]
  show x.now = T
  exact hn

/-- Waiting through the delay deadline `T` fires the delay timer and runs
the execution attempt, provided no other timer is due by `T`. -/
theorem waitE_fire_delay (cfg : DebounceConfig α β) (s : DState α β) (T : Nat)
    (hc : cfg.condition = none)
    (hnow : s.now ≤ T)
    (hft : s.flushTimer = none)
    (hdt : s.delayTimer = some T)
    (hmw : ∀ f, s.maxWaitTimer = some f → T < f) :
    processEvent cfg s (DEvent.waitE T) =
      runCore cfg { s with now := T, delayTimer := none } := by
  have hmax : max s.now T = T := Nat.max_eq_right hnow
  have h1 : earliestDue false s T = some (TimerSlot.delayT, T) := by
    have hfd : dueAt false T s.flushTimer = none := by rw [hft]; rfl
    have hmd : dueAt false T s.maxWaitTimer = none := by
      cases hm : s.maxWaitTimer with
      | none => rfl
      | some f => exact dueAt_none_of_gt (hmw f hm)
    have hdd : dueAt false T s.delayTimer = some T := by
      rw [hdt]; simp [dueAt]
    simp [earliestDue, better, hfd, hmd, hdd]
  simp only [processEvent]
  unfold advanceTo
  rw [hmax]
  show runDue cfg false (T - s.now + 3 + 1) T s = _
  rw [runDue_step cfg false _ T s _ _ h1]
  simp only [fireSlot, tryRun_cond_none cfg hc]
  exact runDue_runCore_fix cfg _ T _ hft rfl

/-- Waiting through an armed max-wait deadline `m` while still pending
fires the max-wait handler, which immediately re-fires the delay timer and
runs the execution attempt at `m`. -/
theorem waitE_fire_maxwait (cfg : DebounceConfig α β) (s : DState α β)
    (m : Nat)
    (hc : cfg.condition = none)
    (hnow : s.now ≤ m)
    (hft : s.flushTimer = none)
    (hmwt : s.maxWaitTimer = some m)
    (hdt : ∀ f, s.delayTimer = some f → m ≤ f)
    (hp : s.hasPending = true) :
    processEvent cfg s (DEvent.waitE m) =
      runCore cfg
        { s with now := m, maxWaitTimer := none, delayTimer := none } := by
  have hmax : max s.now m = m := Nat.max_eq_right hnow
  have h1 : earliestDue false s m = some (TimerSlot.maxWaitT, m) := by
    have hfd : dueAt false m s.flushTimer = none := by rw [hft]; rfl
    have hmd : dueAt false m s.maxWaitTimer = some m := by
      rw [hmwt]; simp [dueAt]
    cases hd : s.delayTimer with
    | none =>
        have hdd : dueAt false m s.delayTimer = none := by rw [hd]; rfl
        simp [earliestDue, better, hfd, hmd, hdd]
    | some f =>
        have hmf := hdt f hd
        by_cases hfm : f ≤ m
        · have hfe : f = m := Nat.le_antisymm hfm hmf
          have hdd : dueAt false m s.delayTimer = some m := by
            rw [hd, hfe]; simp [dueAt]
          simp [earliestDue, better, hfd, hmd, hdd]
        · have hdd : dueAt false m s.delayTimer = none := by
            rw [hd]; simp [dueAt, hfm]
          simp [earliestDue, better, hfd, hmd, hdd]
  have hstep1 : fireSlot cfg TimerSlot.maxWaitT ({ s with now := m }) =
      { s with now := m, maxWaitTimer := none, delayTimer := some m } := by
    simp [fireSlot, maxWaitHandler, hp]
  have h2 : earliestDue false
      ({ s with now := m, maxWaitTimer := none, delayTimer := some m }
        : DState α β) m = some (TimerSlot.delayT, m) := by
    have hdd : dueAt false m (some m) = some m := by simp [dueAt]
    simp [earliestDue, better, hft, hdd, dueAt_none_bot]
  simp only [processEvent]
  unfold advanceTo
  rw [hmax]
  show runDue cfg false (m - s.now + 3 + 1) m s = _
  rw [runDue_step cfg false _ m s _ _ h1]
  rw [hstep1]
  show runDue cfg false (m - s.now + 2 + 1) m _ = _
  rw [runDue_step cfg false _ m _ _ _ h2]
  simp only [fireSlot, tryRun_cond_none cfg hc]
  exact runDue_runCore_fix cfg _ m _ hft rfl

/-! ### Bursts of wrapper calls -/

theorem lastCall_append (c : Nat × α) (l1 l2 : List (Nat × α)) :
    lastCall c (l1 ++ l2) = lastCall (lastCall c l1) l2 := by
  induction l1 generalizing c with
  | nil => rfl
  | cons c' r ih => exact ih c'

theorem lastCall_fst_ge (d : Nat) (l : List (Nat × α)) :
    ∀ (tp : Nat) (a : α), burstTimes d tp l → tp ≤ (lastCall (tp, a) l).1 := by
  induction l with
  | nil => intro tp a _; exact Nat.le_refl tp
  | cons c r ih =>
      intro tp a h
      obtain ⟨h1, _, h3⟩ := h
      exact Nat.le_trans h1 (ih c.1 c.2 h3)

theorem burstTimes_split (d : Nat) (l1 : List (Nat × α)) :
    ∀ (l2 : List (Nat × α)) (tp : Nat) (a : α),
      burstTimes d tp (l1 ++ l2) →
      burstTimes d tp l1 ∧ burstTimes d (lastCall (tp, a) l1).1 l2 := by
  induction l1 with
  | nil => intro l2 tp a h; exact ⟨trivial, h⟩
  | cons c r ih =>
      intro l2 tp a h
      obtain ⟨h1, h2, h3⟩ := h
      obtain ⟨hr, hl⟩ := ih l2 c.1 c.2 h3
      exact ⟨⟨h1, h2, hr⟩, hl⟩

theorem burstInv_first (cfg : DebounceConfig α β) (t1 : Nat) (a1 : α) :
    BurstInv cfg t1 t1 a1
      (processEvent cfg (initState : DState α β) (DEvent.call t1 a1)) := by
  rw [call_first]
  exact { hnow := rfl, hdt := rfl, hmw := rfl, hft := rfl, hp := rfl,
          hla := rfl, hkl := rfl, hpp := rfl, hel := rfl, hsl := rfl }

theorem burstInv_step (cfg : DebounceConfig α β) (t1 tk t' : Nat)
    (ak a' : α) (s : DState α β)
    (inv : BurstInv cfg t1 tk ak s)
    (h1 : tk ≤ t') (h2 : t' < tk + cfg.delay)
    (hmw : maxWaitActive cfg = true → t' ≤ t1 + maxWaitNat cfg) :
    BurstInv cfg t1 t' a' (processEvent cfg s (DEvent.call t' a')) := by
  rw [call_step_pending cfg s t' a' 0
    (inv.hnow ▸ h1) inv.hft
    (by
      intro f hf
      rw [inv.hdt] at hf
      cases hf
      exact Nat.le_of_lt h2)
    (by
      intro f hf
      rw [inv.hmw] at hf
      by_cases hA : maxWaitActive cfg
      · rw [if_pos hA] at hf
        cases hf
        exact hmw hA
      · rw [if_neg hA] at hf
        cases hf)
    inv.hp inv.hpp]
  refine { hnow := rfl, hdt := rfl, hmw := ?_, hft := ?_, hp := ?_,
           hla := rfl, hkl := ?_, hpp := ?_, hel := ?_, hsl := ?_ }
  · exact inv.hmw
  · exact inv.hft
  · exact inv.hp
  · rw [inv.hkl]; exact Bool.or_self _
  · exact inv.hpp
  · exact inv.hel
  · exact inv.hsl

theorem burstInv_calls (cfg : DebounceConfig α β) (rest : List (Nat × α)) :
    ∀ (t1 tk : Nat) (ak : α) (s : DState α β),
      BurstInv cfg t1 tk ak s →
      burstTimes cfg.delay tk rest →
      (maxWaitActive cfg = true →
        (lastCall (tk, ak) rest).1 ≤ t1 + maxWaitNat cfg) →
      BurstInv cfg t1 (lastCall (tk, ak) rest).1 (lastCall (tk, ak) rest).2
        (runFrom cfg s (burstEvents rest)) := by
  induction rest with
  | nil => intro t1 tk ak s inv _ _; exact inv
  | cons c r ih =>
      intro t1 tk ak s inv hb hmw
      obtain ⟨hb1, hb2, hb3⟩ := hb
      have hlast : (lastCall (tk, ak) (c :: r)).1 = (lastCall c r).1 := rfl
      have hcle : c.1 ≤ (lastCall c r).1 := by
        have := lastCall_fst_ge cfg.delay r c.1 c.2 hb3
        simpa using this
      have step := burstInv_step cfg t1 tk c.1 ak c.2 s inv hb1 hb2
        (fun hA => Nat.le_trans hcle (hmw hA))
      have := ih t1 c.1 c.2 _ step hb3 hmw
      simpa [burstEvents, runFrom] using this

/-- From a burst-invariant state, waiting through the final delay deadline
executes the operation exactly once, with the last captured args. -/
theorem burst_finish (cfg : DebounceConfig α β)
    (hc : cfg.condition = none) (t1 tN : Nat) (aN : α) (s : DState α β)
    (inv : BurstInv cfg t1 tN aN s)
    (hmw : maxWaitActive cfg = true →
      tN + cfg.delay < t1 + maxWaitNat cfg) :
    (processEvent cfg s (DEvent.waitE (tN + cfg.delay))).execLog
        = [(tN + cfg.delay, some aN)]
    ∧ (processEvent cfg s (DEvent.waitE (tN + cfg.delay))).hasPending
        = false := by
  rw [waitE_fire_delay cfg s (tN + cfg.delay) hc
    (by rw [inv.hnow]; exact Nat.le_add_right _ _)
    inv.hft inv.hdt
    (by
      intro f hf
      rw [inv.hmw] at hf
      by_cases hA : maxWaitActive cfg
      · rw [if_pos hA] at hf
        cases hf
        exact hmw hA
      · rw [if_neg hA] at hf
        cases hf)]
  constructor
  · rw [runCore_eq]
    simp [inv.hel, inv.hla]
  · rw [runCore_eq]

/-- From a burst-invariant state still pending at the max-wait deadline,
waiting through the deadline executes exactly once, at the deadline. -/
theorem burst_finish_maxwait (cfg : DebounceConfig α β)
    (hc : cfg.condition = none) (hact : maxWaitActive cfg = true)
    (t1 tN : Nat) (aN : α) (s : DState α β)
    (inv : BurstInv cfg t1 tN aN s)
    (hle : tN ≤ t1 + maxWaitNat cfg)
    (hge : t1 + maxWaitNat cfg ≤ tN + cfg.delay) :
    (processEvent cfg s (DEvent.waitE (t1 + maxWaitNat cfg))).execLog
      = [(t1 + maxWaitNat cfg, some aN)] := by
  rw [waitE_fire_maxwait cfg s (t1 + maxWaitNat cfg) hc
    (by rw [inv.hnow]; exact hle)
    inv.hft
    (by rw [inv.hmw, if_pos hact])
    (by
      intro f hf
      rw [inv.hdt] at hf
      cases hf
      exact hge)
    inv.hp]
  rw [runCore_eq]
  simp [inv.hel, inv.hla]

/-- C1.  For every burst of N ≥ 1 wrapper calls arriving strictly within
`delay` of each other (non-decreasing times, each gap `< delay`), with any
max-wait deadline strictly after the final delay deadline, the wrapped
operation executes exactly once for the burst — a singleton execution log —
at the last call's time plus `delay`, and it is invoked with the captured
arguments (and calling context, folded into the args value) of the last
call; earlier calls' arguments are overwritten, never queued.  Stated for
the default configuration without a `condition`. -/
theorem burst_executes_once_with_last_args (cfg : DebounceConfig α β)
    (hc : cfg.condition = none)
    (t1 : Nat) (a1 : α) (rest : List (Nat × α))
    (hb : burstTimes cfg.delay t1 rest)
    (hmw : maxWaitActive cfg = true →
      (lastCall (t1, a1) rest).1 + cfg.delay < t1 + maxWaitNat cfg) :
    (runEvents cfg (burstEvents ((t1, a1) :: rest) ++
        [DEvent.waitE ((lastCall (t1, a1) rest).1 + cfg.delay)])).execLog
      = [((lastCall (t1, a1) rest).1 + cfg.delay,
          some (lastCall (t1, a1) rest).2)] := by
  have hmw2 : maxWaitActive cfg = true →
      (lastCall (t1, a1) rest).1 ≤ t1 + maxWaitNat cfg := fun hA =>
    Nat.le_of_lt (Nat.lt_of_le_of_lt (Nat.le_add_right _ _) (hmw hA))
  have invN := burstInv_calls cfg rest t1 t1 a1 _
    (burstInv_first cfg t1 a1) hb hmw2
  have hfin := burst_finish cfg hc t1 _ _ _ invN hmw
  have hdec : runEvents cfg (burstEvents ((t1, a1) :: rest) ++
      [DEvent.waitE ((lastCall (t1, a1) rest).1 + cfg.delay)]) =
      processEvent cfg
        (runFrom cfg (processEvent cfg initState (DEvent.call t1 a1))
          (burstEvents rest))
        (DEvent.waitE ((lastCall (t1, a1) rest).1 + cfg.delay)) := by
    simp [runEvents, runFrom, burstEvents, List.foldl_append]
  rw [hdec]
  exact hfin.1

/-- Witness for C1: `delay = 100`, calls at 0, 30, 60 with args 1, 2, 3
give exactly one execution at 160 with args 3 (the spec's scenario). -/
theorem burst_executes_once_witness :
    (runEvents cfgSyncBasic (burstEvents ((0, 1) :: [(30, 2), (60, 3)]) ++
        [DEvent.waitE 160])).execLog = [(160, some 3)] :=
  burst_executes_once_with_last_args cfgSyncBasic rfl 0 1 [(30, 2), (60, 3)]
    (by norm_num [burstTimes, cfgSyncBasic])
    (by intro h; simp [maxWaitActive, cfgSyncBasic] at h)

/-- C3.  With `maxWait = W` configured (positive, finite) and calls kept
arriving with gaps `< delay` up to the deadline `t1 + W` (the final delay
deadline not earlier than it), the operation executes exactly once, at
`t1 + W` — within `W` of the burst's first call — regardless of the
continued call activity; moreover after every call prefix of the burst the
max-wait timer is the single deadline `t1 + W` armed by the pending
transition of the first call, never reset by later calls. -/
theorem maxwait_forces_execution_within_bound (cfg : DebounceConfig α β)
    (hc : cfg.condition = none) (hact : maxWaitActive cfg = true)
    (t1 : Nat) (a1 : α) (rest : List (Nat × α))
    (hb : burstTimes cfg.delay t1 rest)
    (hle : (lastCall (t1, a1) rest).1 ≤ t1 + maxWaitNat cfg)
    (hge : t1 + maxWaitNat cfg ≤ (lastCall (t1, a1) rest).1 + cfg.delay) :
    ((runEvents cfg (burstEvents ((t1, a1) :: rest) ++
        [DEvent.waitE (t1 + maxWaitNat cfg)])).execLog
      = [(t1 + maxWaitNat cfg, some (lastCall (t1, a1) rest).2)])
    ∧ ∀ pre suf, rest = pre ++ suf →
        (runEvents cfg (burstEvents ((t1, a1) :: pre))).maxWaitTimer
          = some (t1 + maxWaitNat cfg) := by
  constructor
  · have invN := burstInv_calls cfg rest t1 t1 a1 _
      (burstInv_first cfg t1 a1) hb (fun _ => hle)
    have hfin := burst_finish_maxwait cfg hc hact t1 _ _ _ invN hle hge
    have hdec : runEvents cfg (burstEvents ((t1, a1) :: rest) ++
        [DEvent.waitE (t1 + maxWaitNat cfg)]) =
        processEvent cfg
          (runFrom cfg (processEvent cfg initState (DEvent.call t1 a1))
            (burstEvents rest))
          (DEvent.waitE (t1 + maxWaitNat cfg)) := by
      simp [runEvents, runFrom, burstEvents, List.foldl_append]
    rw [hdec]
    exact hfin
  · intro pre suf hps
    have hq := burstTimes_split cfg.delay pre suf t1 a1
      (by rw [← hps]; exact hb)
    have hmono : (lastCall (t1, a1) pre).1 ≤ (lastCall (t1, a1) rest).1 := by
      rw [hps, lastCall_append]
      exact lastCall_fst_ge cfg.delay suf _ _ hq.2
    have invPre := burstInv_calls cfg pre t1 t1 a1 _
      (burstInv_first cfg t1 a1) hq.1
      (fun _ => Nat.le_trans hmono hle)
    have hXe : runEvents cfg (burstEvents ((t1, a1) :: pre)) =
        runFrom cfg (processEvent cfg initState (DEvent.call t1 a1))
          (burstEvents pre) := by
      simp [runEvents, runFrom, burstEvents]
    rw [hXe, invPre.hmw, if_pos hact]

/-- Witness for C3: `delay = 1000`, `maxWait = 500`, calls every 100 ms
from 0 execute exactly once at 500 (the spec's scenario), and the max-wait
timer stays `some 500` after every call prefix. -/
theorem maxwait_forces_execution_witness :
    ((runEvents cfgMaxW (burstEvents
        ((0, 1) :: [(100, 2), (200, 3), (300, 4), (400, 5)]) ++
        [DEvent.waitE 500])).execLog = [(500, some 5)])
    ∧ ∀ pre suf, [(100, 2), (200, 3), (300, 4), (400, 5)] = pre ++ suf →
        (runEvents cfgMaxW (burstEvents ((0, 1) :: pre))).maxWaitTimer
          = some 500 :=
  maxwait_forces_execution_within_bound cfgMaxW rfl
    (by decide) 0 1 [(100, 2), (200, 3), (300, 4), (400, 5)]
    (by norm_num [burstTimes, cfgMaxW, cfgSyncBasic])
    (by norm_num [lastCall, cfgMaxW, cfgSyncBasic, maxWaitNat])
    (by norm_num [lastCall, cfgMaxW, cfgSyncBasic, maxWaitNat])

/-- C4.  For an async-declared wrapped operation, two calls landing in the
same burst both receive the same Outstanding Result Promise (id 0 on a
fresh invoker, recorded for both calls), and that promise settles with
exactly the outcome `out` produced by the burst's single underlying
execution of the operation on the last call's arguments. -/
theorem shared_promise_settles_with_burst_result (cfg : DebounceConfig α β)
    (ha : cfg.declaredAsync = true) (hc : cfg.condition = none)
    (hm : cfg.maxWait = none)
    (t1 t2 : Nat) (a1 a2 : α) (h12 : t1 ≤ t2) (h2d : t2 < t1 + cfg.delay)
    (out : Settled β) (hfn : cfg.fn (some a2) = FnResult.promise out) :
    ((runEvents cfg [DEvent.call t1 a1, DEvent.call t2 a2,
        DEvent.waitE (t2 + cfg.delay)]).callLog
      = [(t1, some 0), (t2, some 0)])
    ∧ (runEvents cfg [DEvent.call t1 a1, DEvent.call t2 a2,
        DEvent.waitE (t2 + cfg.delay)]).settleLog = [(0, out)] := by
  have hact : maxWaitActive cfg = false := by simp [maxWaitActive, hm]
  have hrun : runEvents cfg [DEvent.call t1 a1, DEvent.call t2 a2,
      DEvent.waitE (t2 + cfg.delay)] =
      processEvent cfg
        (processEvent cfg (processEvent cfg initState (DEvent.call t1 a1))
          (DEvent.call t2 a2))
        (DEvent.waitE (t2 + cfg.delay)) := by
    simp [runEvents, runFrom]
  rw [hrun, call_first cfg t1 a1]
  simp only [ha, hact, if_true, if_false, Bool.false_eq_true]
  rw [call_step_pending cfg _ t2 a2 0
    (by exact h12) rfl
    (by intro f hf; simp at hf; omega)
    (by intro f hf; simp at hf)
    rfl
    (by simp [ha])]
  rw [waitE_fire_delay cfg _ (t2 + cfg.delay) hc
    (by exact Nat.le_add_right t2 cfg.delay)
    rfl rfl
    (by intro f hf; simp at hf)]
  constructor
  · rw [runCore_eq]
    simp [ha]
  · rw [runCore_eq]
    simp [ha, hfn, fnOutcome]

/-- Witness for C4: the async config with two calls at 0 and 30 in one
burst returns promise id 0 to both callers and settles it with `ok 42`. -/
theorem shared_promise_witness :
    ((runEvents cfgAsyncP [DEvent.call 0 1, DEvent.call 30 2,
        DEvent.waitE 130]).callLog = [(0, some 0), (30, some 0)])
    ∧ (runEvents cfgAsyncP [DEvent.call 0 1, DEvent.call 30 2,
        DEvent.waitE 130]).settleLog = [(0, Settled.ok 42)] :=
  shared_promise_settles_with_burst_result cfgAsyncP rfl rfl rfl
    0 30 1 2 (by decide) (by norm_num [cfgAsyncP, cfgSyncBasic])
    (Settled.ok 42) rfl

/-- C2 is violated by the code.  `flush()`'s deferred path schedules
`setTimeout(tryRun, 0)` without storing the handle (line 260), so a
`cancel()` issued while still pending cannot clear it: here a call at 0,
`flush()` at 0, then `cancel()` at 0 rejects the outstanding promise with
`DebounceCancelled` (so `pending()` was true at the cancel), yet at the
next tick the operation still executes — with the nulled-out invocation
record (`fn` applied to no arguments). -/
theorem cancel_after_flush_still_executes :
    ((runEvents cfgAsyncP
        [DEvent.call 0 7, DEvent.flushE 0, DEvent.cancelE 0,
         DEvent.waitE 1]).settleLog
      = [(0, Settled.error DbError.cancelled)])
    ∧ (runEvents cfgAsyncP
        [DEvent.call 0 7, DEvent.flushE 0, DEvent.cancelE 0,
         DEvent.waitE 1]).execLog = [(0, none)] := by
  decide

/-- C5 counterexample: the retry interval after a falsy condition is
`Math.max(10, delay)` (line 134), not a fixed 10 ms floor independent of
`delay`: with `delay = 100` the attempt at 100 reschedules for 200 (gap
100), while with `delay = 5` the attempt at 5 reschedules for 15 (gap 10).
The interval scales with `delay`; a fixed interval would give equal gaps. -/
theorem retry_interval_scales_with_delay :
    ((runEvents cfgCondFalse [DEvent.call 0 1, DEvent.waitE 100]).delayTimer
        = some 200)
    ∧ (runEvents cfgCondFalse5 [DEvent.call 0 1, DEvent.waitE 5]).delayTimer
        = some 15 := by
  decide

/-- C5 as amended: when the configured condition evaluates falsy during an
execution attempt, the attempt re-arms the delay timer after
`max 10 delay` milliseconds — a 10 ms floor that equals `delay` whenever
`delay ≥ 10` — and changes nothing else: Pending State, the Invocation
Record, the max-wait deadline and the promise cell are all untouched. -/
theorem condition_false_retry_interval (cfg : DebounceConfig α β)
    (s : DState α β) (c : Nat → CondOutcome)
    (hc : cfg.condition = some c) (hno : c s.now = CondOutcome.no) :
    tryRun cfg s =
      { s with delayTimer := some (s.now + max 10 cfg.delay) } := by
  simp [tryRun, hc, hno]

/-- Witness for the amended C5: a pending state at time 10 with
`delay = 100` reschedules for 110. -/
theorem condition_false_retry_witness :
    tryRun cfgCondFalse sPend = { sPend with delayTimer := some 110 } :=
  condition_false_retry_interval cfgCondFalse sPend _ rfl rfl

/-- C6 counterexample: for a sync-declared operation no Outstanding Result
Promise exists, so an error thrown by the condition during the attempt is
silently dropped — nothing is ever settled or recorded — refuting "for
every wrapped operation, synchronous or asynchronous, it is never silently
dropped".  (No retry happens either: see the C8 theorem on the same run.) -/
theorem condition_error_dropped_for_sync_op :
    ((runEvents cfgCondThrow [DEvent.call 0 1, DEvent.waitE 50]).settleLog
        = [])
    ∧ (runEvents cfgCondThrow
        [DEvent.call 0 1, DEvent.waitE 50]).pendingPromise = none
    ∧ (runEvents cfgCondThrow [DEvent.call 0 1, DEvent.waitE 50]).execLog
        = [] := by
  decide

/-- C6 as amended: an error raised while evaluating the condition lands in
`tryRun`'s outer catch, which rejects the Outstanding Result Promise when
one exists (the async-declared case) and otherwise does nothing — the
error is dropped; in both cases no retry is scheduled and no other state
changes (`tryRun` alters only the promise cell and the settlement log). -/
theorem condition_error_rejects_outstanding_promise
    (cfg : DebounceConfig α β) (s : DState α β)
    (c : Nat → CondOutcome) (e : DbError)
    (hc : cfg.condition = some c) (he : c s.now = CondOutcome.throws e) :
    (∀ p, s.pendingPromise = some p →
        tryRun cfg s =
          { s with pendingPromise := none,
                   settleLog := s.settleLog ++ [(p, Settled.error e)] })
    ∧ (s.pendingPromise = none → tryRun cfg s = s) := by
  constructor
  · intro p hp
    simp [tryRun, hc, he, settleReject, hp]
  · intro hp
    simp [tryRun, hc, he, settleReject, hp]

/-- Witness for the amended C6: with an outstanding promise (id 0), the
condition error `err 7` rejects it. -/
theorem condition_error_reject_witness :
    tryRun cfgCondThrowAsync sPendP =
      { sPendP with
        pendingPromise := none,
        settleLog := [(0, Settled.error (DbError.err 7))] } :=
  (condition_error_rejects_outstanding_promise cfgCondThrowAsync sPendP _
    (DbError.err 7) rfl rfl).1 0 rfl

/-- C7.  `flush()` while pending with a sync-declared operation and no
condition (or a condition that synchronously evaluates to `true`) clears
the delay and max-wait timers and the signal subscription, executes the
operation immediately with the captured arguments, returns its result
directly — propagating a thrown error to the `flush` caller — and leaves
`pending()` false; `flush()` while not pending is a no-op returning
undefined. -/
theorem flush_sync_immediate (cfg : DebounceConfig α β) (s : DState α β)
    (hsync : cfg.declaredAsync = false)
    (hcond : cfg.condition = none ∨
      ∃ c, cfg.condition = some c ∧ c s.now = CondOutcome.yes) :
    (s.hasPending = false → flushOp cfg s = (s, FlushResult.undef))
    ∧ (∀ a, s.hasPending = true → s.lastArgs = some a →
        (flushOp cfg s).1.hasPending = false
        ∧ (flushOp cfg s).1.delayTimer = none
        ∧ (flushOp cfg s).1.maxWaitTimer = none
        ∧ (flushOp cfg s).1.keyListenerAttached = false
        ∧ (flushOp cfg s).1.execLog = s.execLog ++ [(s.now, some a)]
        ∧ (flushOp cfg s).2 =
            (match cfg.fn (some a) with
             | FnResult.thrown e => FlushResult.threw e
             | r => FlushResult.value r)) := by
  have hchk : flushCondCheck cfg s = FCheck.syncOK := by
    rcases hcond with h | ⟨c, hcc, hyes⟩
    · simp [flushCondCheck, hsync, h]
    · simp [flushCondCheck, hsync, hcc, hyes]
  constructor
  · intro hp
    simp [flushOp, hp]
  · intro a hp hla
    rcases hr : cfg.fn (some a) with v | e | out <;>
      simp [flushOp, hp, hla, hchk, hr]

/-- Witness for C7: flushing the pending state `sPend` under the basic
sync config executes at time 10 with args 5 and returns `ret 0`. -/
theorem flush_sync_witness :
    (flushOp cfgSyncBasic sPend).1.hasPending = false
    ∧ (flushOp cfgSyncBasic sPend).1.delayTimer = none
    ∧ (flushOp cfgSyncBasic sPend).1.maxWaitTimer = none
    ∧ (flushOp cfgSyncBasic sPend).1.keyListenerAttached = false
    ∧ (flushOp cfgSyncBasic sPend).1.execLog = [(10, some 5)]
    ∧ (flushOp cfgSyncBasic sPend).2 = FlushResult.value (FnResult.ret 0) :=
  (flush_sync_immediate cfgSyncBasic sPend rfl (Or.inl rfl)).2 5 rfl rfl

/-- C8 is violated by the code.  After a condition error during the
attempt (`tryRun`'s outer catch), `hasPending` is left `true` while no
timer remains armed and no run is in progress — the spec's invariant
"Pending State is true iff a delay timer or run-in-progress exists" fails
in this reachable state (and the burst is stuck until a new call, cancel,
or flush). -/
theorem pending_invariant_violated_on_condition_error :
    ((runEvents cfgCondThrow [DEvent.call 0 1, DEvent.waitE 50]).hasPending
        = true)
    ∧ (runEvents cfgCondThrow [DEvent.call 0 1, DEvent.waitE 50]).delayTimer
        = none
    ∧ (runEvents cfgCondThrow
        [DEvent.call 0 1, DEvent.waitE 50]).maxWaitTimer = none
    ∧ (runEvents cfgCondThrow
        [DEvent.call 0 1, DEvent.waitE 50]).flushTimer = none
    ∧ (runEvents cfgCondThrow [DEvent.call 0 1, DEvent.waitE 50]).execLog
        = [] := by
  decide

theorem ensurePendingPromise_fst_keyListener (s : DState α β) :
    (ensurePendingPromise s).1.keyListenerAttached =
      s.keyListenerAttached := by
  cases h : s.pendingPromise <;> simp [ensurePendingPromise, h]

theorem schedule_keyListener (cfg : DebounceConfig α β) (s : DState α β) :
    (schedule cfg s).keyListenerAttached =
      (s.keyListenerAttached || cancelKeyActive cfg) := by
  cases hP : s.hasPending <;> cases hM : maxWaitActive cfg <;>
    simp [schedule, attachKeyListener_eq, hP, hM]

theorem callOp_keyListener (cfg : DebounceConfig α β) (s : DState α β)
    (a : α) :
    (callOp cfg s a).1.keyListenerAttached =
      (s.keyListenerAttached || cancelKeyActive cfg) := by
  cases hD : cfg.declaredAsync <;>
    simp [callOp, hD, ensurePendingPromise_fst_keyListener,
          schedule_keyListener]

/-- C9 as amended: a wrapper call attaches the window `keydown` listener
exactly when the host is a browser and a non-empty `cancelOn` key is
configured.  In a browser host, raising the configured key after a call
acts exactly as an explicit `cancel()`; in a non-browser host the
subscription is never attached and the raised signal has no effect;
`cancelOn = null` disables the feature entirely. -/
theorem cancel_signal_browser_only (cfg : DebounceConfig α β)
    (s : DState α β) (a : α) (k : String) :
    ((callOp cfg s a).1.keyListenerAttached =
        (s.keyListenerAttached || cancelKeyActive cfg))
    ∧ (cfg.cancelOn = some k → s.keyListenerAttached = false →
        cfg.isBrowser = false →
        keydownOp cfg (callOp cfg s a).1 k = (callOp cfg s a).1)
    ∧ (cfg.cancelOn = some k → k ≠ "" → cfg.isBrowser = true →
        keydownOp cfg (callOp cfg s a).1 k = cancelOp (callOp cfg s a).1)
    ∧ (cfg.cancelOn = none →
        keydownOp cfg (callOp cfg s a).1 k = (callOp cfg s a).1) := by
  refine ⟨callOp_keyListener cfg s a, ?_, ?_, ?_⟩
  · intro hk hkl hbrow
    have hact : cancelKeyActive cfg = false := by
      simp [cancelKeyActive, hbrow]
    have hX : (callOp cfg s a).1.keyListenerAttached = false := by
      rw [callOp_keyListener, hkl, hact]
      rfl
    simp [keydownOp, hX]
  · intro hk hne hbrow
    have hact : cancelKeyActive cfg = true := by
      simp [cancelKeyActive, hbrow, hk, hne]
    have hX : (callOp cfg s a).1.keyListenerAttached = true := by
      rw [callOp_keyListener, hact]
      exact Bool.or_true _
    simp [keydownOp, hX, hk]
  · intro hk
    simp [keydownOp, hk]

/-- C9 counterexample: in a non-browser host (the source's `isBrowser`
guard, line 44/97) the configured cancel signal is inert — after a call,
raising the configured key leaves the call pending and nothing is
rejected — refuting "in every host environment". -/
theorem cancel_signal_inert_outside_browser :
    ((runEvents cfgKeyNode
        [DEvent.call 0 1, DEvent.keyE 10 escKey]).hasPending = true)
    ∧ (runEvents cfgKeyNode
        [DEvent.call 0 1, DEvent.keyE 10 escKey]).settleLog = []
    ∧ (runEvents cfgKeyNode
        [DEvent.call 0 1, DEvent.keyE 10 escKey]).keyListenerAttached
        = false := by
  decide

/-- Witness for the amended C9: in the browser config, the raised key
after a call equals an explicit cancel. -/
theorem cancel_signal_browser_witness :
    keydownOp cfgKeyBrow (callOp cfgKeyBrow initState 5).1 escKey =
      cancelOp (callOp cfgKeyBrow initState 5).1 :=
  (cancel_signal_browser_only cfgKeyBrow initState 5 escKey).2.2.1 rfl
    (by decide) rfl

/-- C10.  Async mode is fixed at construction by the declared-async flag
(line 72's constructor-name check), not by whether the operation returns a
promise at runtime: for a sync-declared operation that always returns a
promise, (i) a wrapper call returns undefined — no Outstanding Result
Promise is created; (ii) `flush()`'s synchronous-eligibility path applies
and returns the raw promise object; (iii) the deferred execution path
executes the operation but discards the value its promise resolves to —
nothing is ever settled. -/
theorem async_mode_fixed_at_construction (cfg : DebounceConfig α β)
    (v : β)
    (hsync : cfg.declaredAsync = false) (hc : cfg.condition = none)
    (hm : cfg.maxWait = none)
    (hfn : ∀ x, cfg.fn x = FnResult.promise (Settled.ok v))
    (t : Nat) (a : α) :
    ((processEvent cfg initState (DEvent.call t a)).callLog = [(t, none)])
    ∧ (processEvent cfg initState (DEvent.call t a)).pendingPromise = none
    ∧ (flushOp cfg (processEvent cfg initState (DEvent.call t a))).2
        = FlushResult.value (FnResult.promise (Settled.ok v))
    ∧ (processEvent cfg (processEvent cfg initState (DEvent.call t a))
        (DEvent.waitE (t + cfg.delay))).execLog = [(t + cfg.delay, some a)]
    ∧ (processEvent cfg (processEvent cfg initState (DEvent.call t a))
        (DEvent.waitE (t + cfg.delay))).settleLog = [] := by
  have hact : maxWaitActive cfg = false := by simp [maxWaitActive, hm]
  have hR : processEvent cfg initState (DEvent.call t a) =
      { now := t, delayTimer := some (t + cfg.delay), maxWaitTimer := none,
        flushTimer := none, lastArgs := some a, hasPending := true,
        pendingPromise := none, nextPromiseId := 0,
        keyListenerAttached := cancelKeyActive cfg,
        execLog := [], settleLog := [], callLog := [(t, none)],
        flushLog := [] } := by
    rw [call_first]
    ext <;> simp [hsync, hact]
  rw [hR]
  refine ⟨rfl, rfl, ?_, ?_, ?_⟩
  · simp [flushOp, flushCondCheck, hsync, hc, hfn]
  · rw [waitE_fire_delay cfg _ (t + cfg.delay) hc
      (Nat.le_add_right t cfg.delay) rfl rfl
      (by intro f hf; simp at hf)]
    rw [runCore_eq]
    simp
  · rw [waitE_fire_delay cfg _ (t + cfg.delay) hc
      (Nat.le_add_right t cfg.delay) rfl rfl
      (by intro f hf; simp at hf)]
    rw [runCore_eq]
    simp

/-- Witness for C10 on the concrete sync-declared promise-returning
config. -/
theorem async_mode_witness :
    ((processEvent cfgPromiseSync initState (DEvent.call 0 1)).callLog
        = [(0, none)])
    ∧ (processEvent cfgPromiseSync initState
        (DEvent.call 0 1)).pendingPromise = none
    ∧ (flushOp cfgPromiseSync
        (processEvent cfgPromiseSync initState (DEvent.call 0 1))).2
        = FlushResult.value (FnResult.promise (Settled.ok 7))
    ∧ (processEvent cfgPromiseSync
        (processEvent cfgPromiseSync initState (DEvent.call 0 1))
        (DEvent.waitE 100)).execLog = [(100, some 1)]
    ∧ (processEvent cfgPromiseSync
        (processEvent cfgPromiseSync initState (DEvent.call 0 1))
        (DEvent.waitE 100)).settleLog = [] :=
  async_mode_fixed_at_construction cfgPromiseSync 7 rfl rfl rfl
    (fun _ => rfl) 0 1

end SmartDebounce
